import Mathlib

/-!
Verification of `app/vmctl/native/client.go` (VictoriaMetrics vmctl, native
protocol client).

The file shallowly embeds the client's operations.  HTTP transport, JSON
decoding, body reading/closing, time parsing (`utils.GetTime`) and date-range
chunking (`stepper.SplitDateRange`) are external collaborators of the client:
they are modelled as fields of an abstract environment `Env`, so every theorem
quantifies over their behaviour.  The concurrent fan-out of `Explore` is
modelled by a completion-order schedule (`List (Nat × TaskRes)`) constrained by
a well-formedness predicate `wfSched` that captures the semantics of
`errgroup.WithContext`, the unbuffered result channel and the final
`select` between delivering on the channel and the group context's
cancellation.
-/

set_option linter.unusedVariables false

namespace Native

deriving instance DecidableEq for Except

/-- Option.isSome-style helper: an `Except` value carries an error. -/
def isErrE {ε α : Type} : Except ε α → Bool
  | .error _ => true
  | .ok _ => false

/-- An `Except` value carries a success. -/
def isOkE {ε α : Type} : Except ε α → Bool
  | .error _ => false
  | .ok _ => true

/-- Successful payload of an `Except`, when there is one. -/
def okValue {ε α : Type} : Except ε α → Option α
  | .error _ => none
  | .ok a => some a

/-- Chunk granularity constants of the `stepper` package.  Modelled from the
spec: the stepper package is outside the staged sources; the spec's data model
gives the chunk enum `{minute, hour, day, week, month, year, ""}`. -/
def StepMonth : String := "month"

/-- Week step constant of the `stepper` package (see `StepMonth`). -/
def StepWeek : String := "week"

/-- Day step constant of the `stepper` package (see `StepMonth`). -/
def StepDay : String := "day"

/-- Hour step constant of the `stepper` package (see `StepMonth`). -/
def StepHour : String := "hour"

/-- Minute step constant of the `stepper` package (see `StepMonth`). -/
def StepMinute : String := "minute"

/-- Year step constant of the `stepper` package (see `StepMonth`). -/
def StepYear : String := "year"

/-- Path constant `nativeTenantsAddr` of client.go. -/
def nativeTenantsAddr : String := "admin/tenants"

/-- Path constant `nativeMetricNamesAddr` of client.go. -/
def nativeMetricNamesAddr : String := "api/v1/label/__name__/values"

/-- The query/chunking filter handed to the client.  The fields are the ones
client.go reads (`f.Match`, `f.TimeStart`, `f.TimeEnd`, `f.Chunk`); the
defining Go file sits next to client.go and the field set follows the spec's
data model (`match`, optional `timeStart`/`timeEnd` strings, `chunk`). -/
structure Filter where
  Match : String := ""
  TimeStart : String := ""
  TimeEnd : String := ""
  Chunk : String := ""
deriving DecidableEq

/-- An outbound HTTP request as client.go assembles it: method, URL, encoded
query parameters and headers. -/
structure Request where
  method : String
  url : String
  query : List (String × String) := []
  headers : List (String × String) := []
deriving DecidableEq

/-- An HTTP response: status code plus an opaque body stream of type `Body`
(reading, decoding and closing the stream are `Env` operations). -/
structure HTTPResponse (Body : Type) where
  statusCode : Nat
  body : Body
deriving DecidableEq

/-- Response shape of `api/v1/label/__name__/values` as client.go declares it:
`{status, data: []string}` with `data` mapped to `MetricNames`. -/
structure Response where
  Status : String := ""
  MetricNames : List String := []
deriving DecidableEq

/-- The external collaborators of client.go, abstracted: the HTTP transport
(`send` = `HTTPClient.Do`), body operations (`io.ReadAll`, `Body.Close`,
the two `json.Decoder` shapes) and, modelled from the spec because their
packages are outside the staged sources, `utils.GetTime`,
`stepper.SplitDateRange` (instants as integers, a failing parse or split
returns an error) and RFC3339 formatting of an instant. -/
structure Env (Body : Type) where
  send : Request → Except String (HTTPResponse Body)
  readAll : Body → Except String String
  closeBody : Body → Except String Unit
  decodeResponse : Body → Except String Response
  decodeTenants : Body → Except String (List String)
  getTime : String → Except String Int
  splitDateRange : Int → Int → String → Bool → Except String (List (Int × Int))
  formatRFC3339 : Int → String

/-- The client configuration bundle.  `AuthCfg` models `auth.Config`, from the
spec: an optional collaborator that mutates the request headers before every
outbound call.  The HTTP transport lives in `Env.send`. -/
structure Client where
  AuthCfg : Option (List (String × String) → List (String × String)) := none
  Addr : String
  ExtraLabels : List String := []

/-- Header injection of client.go's `do`: `if c.AuthCfg != nil then
c.AuthCfg.SetHeaders(req, true)`. -/
def applyAuth (cfg : Option (List (String × String) → List (String × String)))
    (req : Request) : Request :=
  match cfg with
  | none => req
  | some setHeaders => { req with headers := setHeaders req.headers }

/-- client.go's `do`, instrumented with the list of requests handed to the
transport (the Go function performs exactly one send).  Transport failure and
status-code mismatch produce the error strings of the source; on a mismatch
the full body is read first, and a failing read produces its own error. -/
def Client.doRequestT {Body : Type} (c : Client) (env : Env Body) (req : Request)
    (expSC : Nat) : List Request × Except String (HTTPResponse Body) :=
  let sent := applyAuth c.AuthCfg req
  ([sent],
    match env.send sent with
    | .error e => .error ("unexpected error when performing request: " ++ e)
    | .ok resp =>
      if resp.statusCode ≠ expSC then
        match env.readAll resp.body with
        | .error e =>
          .error ("failed to read response body for status code "
            ++ toString resp.statusCode ++ ": " ++ e)
        | .ok body =>
          .error ("unexpected response code " ++ toString resp.statusCode
            ++ ": " ++ body)
      else .ok resp)

/-- client.go's `do` (named `doRequest` here because `do` is reserved in
Lean): the result component of `doRequestT`. -/
def Client.doRequest {Body : Type} (c : Client) (env : Env Body) (req : Request)
    (expSC : Nat) : Except String (HTTPResponse Body) :=
  (c.doRequestT env req expSC).2

/-- Query-parameter update with `url.Values.Set` semantics: replace the value
under the key if present, append otherwise. -/
def setParam (q : List (String × String)) (k v : String) : List (String × String) :=
  if q.any (fun p => p.1 = k) then
    q.map (fun p => if p.1 = k then (k, v) else p)
  else q ++ [(k, v)]

/-- Effective explore granularity, lines 44–51 of client.go: hour, minute, day
and the empty chunk are replaced by week; any other chunk is kept. -/
def exploreChunk (f : Filter) : String :=
  if f.Chunk = StepHour ∨ f.Chunk = StepMinute ∨ f.Chunk = StepDay ∨ f.Chunk = ""
  then StepWeek
  else f.Chunk

/-- URL of one metric-names-listing request, lines 75–78 of client.go: the
tenant-scoped path when `tenantID` is non-empty, the global path otherwise. -/
def exploreURL (addr tenantID : String) : String :=
  if tenantID ≠ "" then
    addr ++ "/select/" ++ tenantID ++ "/prometheus/" ++ nativeMetricNamesAddr
  else addr ++ "/" ++ nativeMetricNamesAddr

/-- One sub-range request of `Explore`, lines 75–92 of client.go: GET to
`exploreURL`; `start`/`end` are set only when the Filter's `TimeStart` /
`TimeEnd` are non-empty, to the RFC3339-formatted sub-range boundaries
(`startS`, `endS`); `match[]` is always set to the Filter's match. -/
def buildExploreRequest (addr tenantID : String) (f : Filter)
    (startS endS : String) : Request :=
  let params : List (String × String) := []
  let params := if f.TimeStart ≠ "" then setParam params "start" startS else params
  let params := if f.TimeEnd ≠ "" then setParam params "end" endS else params
  let params := setParam params "match[]" f.Match
  { method := "GET", url := exploreURL addr tenantID, query := params }

/-- Parsing and partitioning prologue of `Explore`, lines 53–66 of client.go,
with the granularity as an explicit argument: parse `TimeStart` and `TimeEnd`
via `GetTime`, then split `[start, end]` via `SplitDateRange` (the Go call
passes `timeReverse = false`).  Each failure returns the wrapped error string
of the source. -/
def exploreSetupWith {Body : Type} (env : Env Body) (f : Filter)
    (chunk : String) : Except String (List (Int × Int)) :=
  match env.getTime f.TimeStart with
  | .error e => .error ("failed to parse time start for explore metrics: " ++ e)
  | .ok start =>
    match env.getTime f.TimeEnd with
    | .error e => .error ("failed to parse time end for explore metrics: " ++ e)
    | .ok stop =>
      match env.splitDateRange start stop chunk false with
      | .error e =>
        .error ("failed to create date ranges for explore metrics: " ++ e)
      | .ok ranges => .ok ranges

/-- The prologue of `Explore` as the source runs it: at the effective
granularity `exploreChunk f`. -/
def exploreSetup {Body : Type} (env : Env Body) (f : Filter) :
    Except String (List (Int × Int)) :=
  exploreSetupWith env f (exploreChunk f)

/-- The body of one sub-range goroutine of `Explore` (lines 74–106 of
client.go) up to the final channel `select`: build the request, execute it via
`do` expecting 200, decode the JSON body, close the body.  The result is the
decoded metric-name list or the goroutine's wrapped error string. -/
def Client.exploreTask {Body : Type} (c : Client) (env : Env Body) (f : Filter)
    (tenantID : String) (times : Int × Int) : Except String (List String) :=
  let req := buildExploreRequest c.Addr tenantID f
    (env.formatRFC3339 times.1) (env.formatRFC3339 times.2)
  match c.doRequest env req 200 with
  | .error e => .error ("series request failed: " ++ e)
  | .ok resp =>
    match env.decodeResponse resp.body with
    | .error e => .error ("cannot decode series response: " ++ e)
    | .ok response =>
      match env.closeBody resp.body with
      | .error e => .error ("cannot close series response body: " ++ e)
      | .ok _ => .ok response.MetricNames

/-- Intrinsic outcome of every sub-range goroutine of one `Explore` call (the
empty list when the prologue fails and no goroutine is started). -/
def Client.exploreTasks {Body : Type} (c : Client) (env : Env Body) (f : Filter)
    (tenantID : String) : List (Except String (List String)) :=
  match exploreSetup env f with
  | .error _ => []
  | .ok ranges => ranges.map (c.exploreTask env f tenantID)

/-- Cancellation state of the context shared by the sub-range goroutines.
`errgroup.WithContext` (line 69 of client.go) derives a context that is
cancelled when the parent context is cancelled or the first time a function
passed to `Go` returns a non-nil error (it is additionally cancelled once
`Wait` returns, after every task has already finished). -/
def groupCtxCancelled (parentCancelled : Bool)
    (tasks : List (Except String (List String))) : Bool :=
  parentCancelled || tasks.any isErrE

/-- Observable fate of one sub-range goroutine in one execution:
`delivered names` — the goroutine succeeded and its channel send was received;
`failed msg` — the goroutine returned the error `msg`;
`abandoned` — the goroutine succeeded but its `select` took `ctx.Done()`
(so it returned `ctx.Err()` and its names were lost). -/
inductive TaskRes
  | delivered (names : List String)
  | failed (msg : String)
  | abandoned
deriving DecidableEq

/-- Consistency of one schedule entry `(i, r)` with the goroutines' intrinsic
outcomes: the index is in range; a delivery carries exactly the successful
outcome of goroutine `i`; an abandoned delivery needs a successful outcome
and a cancelled group context; a failure carries either goroutine `i`'s
intrinsic error or, when the group context is cancelled, any
cancellation-induced error (the context aborts in-flight requests). -/
def wfEntry (tasks : List (Except String (List String))) (cc : Bool)
    (e : Nat × TaskRes) : Bool :=
  match tasks[e.1]? with
  | none => false
  | some t =>
    match e.2 with
    | .delivered ns => decide (t = .ok ns)
    | .abandoned => isOkE t && cc
    | .failed m => decide (t = .error m) || cc

/-- Well-formed completion-order schedule of one `Explore` execution: every
goroutine appears exactly once (the consumer loop drains the channel until it
is closed, which happens only after `errs.Wait()` has seen every goroutine
finish), and every entry is consistent with the intrinsic outcomes under the
group-context cancellation state. -/
def wfSched (tasks : List (Except String (List String))) (parentCancelled : Bool)
    (sched : List (Nat × TaskRes)) : Prop :=
  (sched.map Prod.fst).Perm (List.range tasks.length) ∧
  sched.all (wfEntry tasks (groupCtxCancelled parentCancelled tasks)) = true

instance (tasks : List (Except String (List String))) (pc : Bool)
    (sched : List (Nat × TaskRes)) : Decidable (wfSched tasks pc sched) :=
  inferInstanceAs (Decidable (_ ∧ _))

/-- Consumer loop of `Explore`, lines 123–125 of client.go: append each
delivered slice, in completion order, to the accumulated name list. -/
def exploreCollect (sched : List (Nat × TaskRes)) : List String :=
  sched.foldl
    (fun acc e =>
      match e.2 with
      | .delivered ns => acc ++ ns
      | _ => acc)
    []

/-- client.go's `Explore` over one scheduled execution: the prologue's error
when parsing or splitting fails, otherwise the names collected from the
channel and a nil error (line 127 returns `metricNames, nil` whatever
`errs.Wait()` reported — per-goroutine errors are only logged). -/
def Client.Explore {Body : Type} (c : Client) (env : Env Body) (f : Filter)
    (tenantID : String) (sched : List (Nat × TaskRes)) :
    Except String (List String) :=
  match exploreSetup env f with
  | .error e => .error e
  | .ok _ => .ok (exploreCollect sched)

/-- client.go's `ImportPipe`: POST the caller's pipe reader to `dstURL`
(the streamed request body is opaque to this model), expect 204 via `do`,
then close the response body; a failing close is an error of its own. -/
def Client.ImportPipe {Body : Type} (c : Client) (env : Env Body)
    (dstURL : String) : Except String Unit :=
  let req : Request := { method := "POST", url := dstURL }
  match c.doRequest env req 204 with
  | .error e => .error ("import request failed: " ++ e)
  | .ok importResp =>
    match env.closeBody importResp.body with
    | .error e => .error ("cannot close import response body: " ++ e)
    | .ok _ => .ok ()

/-- The request `ExportPipe` builds, lines 149–165 of client.go: GET to the
caller-supplied URL with `match[]` always set, `start`/`end` set verbatim when
non-empty, and `Accept-Encoding: identity` forced. -/
def exportRequest (url : String) (f : Filter) : Request :=
  let params : List (String × String) := []
  let params := setParam params "match[]" f.Match
  let params := if f.TimeStart ≠ "" then setParam params "start" f.TimeStart else params
  let params := if f.TimeEnd ≠ "" then setParam params "end" f.TimeEnd else params
  { method := "GET", url := url, query := params,
    headers := [("Accept-Encoding", "identity")] }

/-- client.go's `ExportPipe`: execute `exportRequest` via `do` expecting 200
and hand the open response body back to the caller. -/
def Client.ExportPipe {Body : Type} (c : Client) (env : Env Body) (url : String)
    (f : Filter) : Except String Body :=
  match c.doRequest env (exportRequest url f) 200 with
  | .error e => .error ("export request failed: " ++ e)
  | .ok resp => .ok resp.body

/-- The request `GetSourceTenants` builds, lines 176–189 of client.go: GET to
`admin/tenants` under the client's address with `start`/`end` copied verbatim
from the Filter when non-empty. -/
def tenantsRequest (addr : String) (f : Filter) : Request :=
  let params : List (String × String) := []
  let params := if f.TimeStart ≠ "" then setParam params "start" f.TimeStart else params
  let params := if f.TimeEnd ≠ "" then setParam params "end" f.TimeEnd else params
  { method := "GET", url := addr ++ "/" ++ nativeTenantsAddr, query := params }

/-- client.go's `GetSourceTenants`, instrumented with the requests handed to
the transport: one request via `do` expecting 200, decode `{data: []string}`,
close the body; every failure is returned to the caller. -/
def Client.GetSourceTenantsT {Body : Type} (c : Client) (env : Env Body)
    (f : Filter) : List Request × Except String (List String) :=
  let t := c.doRequestT env (tenantsRequest c.Addr f) 200
  (t.1,
    match t.2 with
    | .error e => .error ("tenants request failed: " ++ e)
    | .ok resp =>
      match env.decodeTenants resp.body with
      | .error e => .error ("cannot decode tenants response: " ++ e)
      | .ok tenants =>
        match env.closeBody resp.body with
        | .error e => .error ("cannot close tenants response body: " ++ e)
        | .ok _ => .ok tenants)

/-- client.go's `GetSourceTenants`: the result component of
`GetSourceTenantsT`. -/
def Client.GetSourceTenants {Body : Type} (c : Client) (env : Env Body)
    (f : Filter) : Except String (List String) :=
  (c.GetSourceTenantsT env f).2

/-! Concrete sample data used by the closed witness and counterexample
theorems.  `sampleEnv` drives one `Explore` call whose interval splits into
two sub-ranges: the first sub-range's request gets a 200 with a decodable
body listing `["a"]`, the second gets a 500, so its goroutine fails.
`sampleEnvOk` answers 200 on every request. -/

/-- Sample client: no authentication configuration. -/
def sampleClient : Client := { Addr := "http://src" }

/-- Sample filter: day chunking (upgraded to week by `exploreChunk`) over a
parsable interval. -/
def sampleFilter : Filter :=
  { Match := "up", TimeStart := "2024-01-01", TimeEnd := "2024-01-15",
    Chunk := "day" }

/-- Sample environment (bodies are numbered streams): request carrying
`start = T100` gets 200 with body 1 (decodes to `["a"]`), anything else gets
500 with body 2 (which would not decode). -/
def sampleEnv : Env Nat :=
  { send := fun req =>
      if req.query.lookup "start" = some "T100" then
        .ok { statusCode := 200, body := 1 }
      else .ok { statusCode := 500, body := 2 }
  , readAll := fun b => .ok ("body" ++ toString b)
  , closeBody := fun _ => .ok ()
  , decodeResponse := fun b =>
      if b = 1 then .ok { Status := "success", MetricNames := ["a"] }
      else .error "bad json"
  , decodeTenants := fun _ => .ok ["0:0"]
  , getTime := fun s =>
      if s = "2024-01-01" then .ok 100
      else if s = "2024-01-15" then .ok 200
      else .error "cannot parse"
  , splitDateRange := fun s e _ _ =>
      if s ≤ e then .ok [(s, (s + e) / 2), ((s + e) / 2, e)]
      else .error "invalid range"
  , formatRFC3339 := fun n => "T" ++ toString n }

/-- Sample environment in which every request gets a 200 with body 1. -/
def sampleEnvOk : Env Nat :=
  { sampleEnv with send := fun _ => .ok { statusCode := 200, body := 1 } }

/-! Theorems. -/

/-- Effective chunk granularity in the spec's words: a Filter chunk of
minute, hour, day, or unset is upgraded to week; otherwise the Filter's own
chunk granularity is used. -/
def specEffectiveChunk (f : Filter) : String :=
  if f.Chunk = StepMinute ∨ f.Chunk = StepHour ∨ f.Chunk = StepDay ∨ f.Chunk = ""
  then StepWeek
  else f.Chunk

/-- C4: for every Filter, Explore partitions the time interval at the
effective granularity of week whenever the Filter's chunk is minute, hour,
day, or the empty string, and at the Filter's own chunk granularity
otherwise: the granularity client.go computes equals the spec's effective
granularity, and Explore's prologue splits the interval at exactly that
granularity. -/
theorem explore_effective_chunk {Body : Type} (env : Env Body) (f : Filter) :
    exploreChunk f = specEffectiveChunk f ∧
    exploreSetup env f = exploreSetupWith env f (specEffectiveChunk f) := by
  have hc : exploreChunk f = specEffectiveChunk f := by
    unfold exploreChunk specEffectiveChunk
    exact if_congr (by tauto) rfl rfl
  exact ⟨hc, by rw [exploreSetup, hc]⟩

/-- C2 (amended): the context shared by the sub-range goroutines of one
Explore call is cancelled exactly when the caller's parent context is
cancelled or some sub-range goroutine returns a non-nil error —
`errgroup.WithContext` cancels the derived context on the first failing
task, so peer failures do cancel the shared scope. -/
theorem explore_group_cancellation {Body : Type} (c : Client) (env : Env Body)
    (f : Filter) (tenantID : String) (pc : Bool) :
    groupCtxCancelled pc (c.exploreTasks env f tenantID) = true ↔
      pc = true ∨ ∃ t ∈ c.exploreTasks env f tenantID, isErrE t = true := by
  unfold groupCtxCancelled
  simp [List.any_eq_true]

/-- C2, counterexample to the claim as stated: in the sample execution the
parent context is never cancelled (`parentCancelled = false`), yet the shared
group context is cancelled, because the second sub-range goroutine (whose
request gets a 500) returns a non-nil error. -/
theorem explore_group_cancellation_cex :
    groupCtxCancelled false (sampleClient.exploreTasks sampleEnv sampleFilter "")
      = true ∧
    (sampleClient.exploreTasks sampleEnv sampleFilter "").any isErrE = true ∧
    (false : Bool) ≠ true := by
  refine ⟨by decide, by decide, by decide⟩

/-- C5: every request issued by Explore for a sub-range `times` uses the
tenant-scoped path exactly when `tenantID` is non-empty and the global path
otherwise, always carries `match[]` set to the Filter's match, and carries
`start` (resp. `end`) formatted as the RFC3339 timestamp of the sub-range's
boundary exactly when the Filter's `TimeStart` (resp. `TimeEnd`) is
non-empty (this is the request `Client.exploreTask` hands to `do`). -/
theorem explore_request_shape {Body : Type} (c : Client) (env : Env Body)
    (f : Filter) (tenantID : String) (times : Int × Int) :
    (buildExploreRequest c.Addr tenantID f (env.formatRFC3339 times.1)
        (env.formatRFC3339 times.2)).url =
      (if tenantID = "" then c.Addr ++ "/" ++ nativeMetricNamesAddr
       else c.Addr ++ "/select/" ++ tenantID ++ "/prometheus/"
         ++ nativeMetricNamesAddr) ∧
    (buildExploreRequest c.Addr tenantID f (env.formatRFC3339 times.1)
        (env.formatRFC3339 times.2)).method = "GET" ∧
    (buildExploreRequest c.Addr tenantID f (env.formatRFC3339 times.1)
        (env.formatRFC3339 times.2)).query.lookup "match[]" = some f.Match ∧
    (buildExploreRequest c.Addr tenantID f (env.formatRFC3339 times.1)
        (env.formatRFC3339 times.2)).query.lookup "start" =
      (if f.TimeStart = "" then none else some (env.formatRFC3339 times.1)) ∧
    (buildExploreRequest c.Addr tenantID f (env.formatRFC3339 times.1)
        (env.formatRFC3339 times.2)).query.lookup "end" =
      (if f.TimeEnd = "" then none else some (env.formatRFC3339 times.2)) := by
  by_cases hs : f.TimeStart = "" <;> by_cases he : f.TimeEnd = "" <;>
    by_cases ht : tenantID = "" <;>
      simp [buildExploreRequest, setParam, exploreURL, hs, he, ht, List.lookup]

/-- C8: the single GET issued by ExportPipe carries `match[]` set to the
Filter's match, carries `start` (resp. `end`) verbatim exactly when the
Filter's `TimeStart` (resp. `TimeEnd`) is non-empty, and has the
`Accept-Encoding` header set to `identity` regardless of the Filter's
contents. -/
theorem export_request_shape (url : String) (f : Filter) :
    (exportRequest url f).method = "GET" ∧
    (exportRequest url f).url = url ∧
    (exportRequest url f).query.lookup "match[]" = some f.Match ∧
    (exportRequest url f).query.lookup "start" =
      (if f.TimeStart = "" then none else some f.TimeStart) ∧
    (exportRequest url f).query.lookup "end" =
      (if f.TimeEnd = "" then none else some f.TimeEnd) ∧
    (exportRequest url f).headers.lookup "Accept-Encoding" = some "identity" := by
  by_cases hs : f.TimeStart = "" <;> by_cases he : f.TimeEnd = "" <;>
    simp [exportRequest, setParam, hs, he, List.lookup]

/-- The whole per-goroutine name lists a schedule delivers, in completion
order. -/
def deliveredLists (sched : List (Nat × TaskRes)) : List (List String) :=
  sched.filterMap fun e =>
    match e.2 with
    | .delivered ns => some ns
    | _ => none

theorem exploreCollect_eq_flatten (sched : List (Nat × TaskRes)) :
    exploreCollect sched = (deliveredLists sched).flatten := by
  unfold exploreCollect
  suffices h : ∀ acc : List String,
      sched.foldl
        (fun acc e =>
          match e.2 with
          | .delivered ns => acc ++ ns
          | _ => acc)
        acc = acc ++ (deliveredLists sched).flatten by
    simpa using h []
  induction sched with
  | nil => intro acc; simp [deliveredLists]
  | cons e es ih =>
    intro acc
    obtain ⟨i, r⟩ := e
    cases r with
    | delivered ns => simp [deliveredLists, ih]
    | failed m => simp [deliveredLists, ih]
    | abandoned => simp [deliveredLists, ih]

theorem exploreCollect_nil_of_failed (sched : List (Nat × TaskRes))
    (h : ∀ e ∈ sched, ∃ m, e.2 = TaskRes.failed m) :
    exploreCollect sched = [] := by
  rw [exploreCollect_eq_flatten]
  have hnil : deliveredLists sched = [] := by
    unfold deliveredLists
    rw [List.filterMap_eq_nil_iff]
    intro e he
    obtain ⟨m, hm⟩ := h e he
    simp [hm]
  simp [hnil]

/-- C1: Explore returns a non-nil error exactly when parsing `TimeStart` /
`TimeEnd` or splitting the date range fails; both checks precede any HTTP
request (a prologue failure makes the result independent of the scheduled
sub-range outcomes); after the prologue every sub-range failure is only
logged and the call returns the collected names with a nil error, and when
every sub-range fails the result is the empty list with a nil error. -/
theorem explore_error_policy {Body : Type} (c : Client) (env : Env Body)
    (f : Filter) (tenantID : String) (sched sched' : List (Nat × TaskRes)) :
    (isErrE (c.Explore env f tenantID sched) = true ↔
      isErrE (env.getTime f.TimeStart) = true ∨
      isErrE (env.getTime f.TimeEnd) = true ∨
      (∃ s t, env.getTime f.TimeStart = .ok s ∧ env.getTime f.TimeEnd = .ok t ∧
        isErrE (env.splitDateRange s t (exploreChunk f) false) = true)) ∧
    (∀ ranges, exploreSetup env f = .ok ranges →
      c.Explore env f tenantID sched = .ok (exploreCollect sched)) ∧
    (isErrE (exploreSetup env f) = true →
      c.Explore env f tenantID sched = c.Explore env f tenantID sched') ∧
    ((∀ e ∈ sched, ∃ m, e.2 = TaskRes.failed m) →
      ∀ ranges, exploreSetup env f = .ok ranges →
        c.Explore env f tenantID sched = .ok []) := by
  refine ⟨?_, ?_, ?_, ?_⟩
  · unfold Client.Explore exploreSetup exploreSetupWith
    cases hs : env.getTime f.TimeStart with
    | error e => simp [isErrE, hs]
    | ok s =>
      cases he : env.getTime f.TimeEnd with
      | error e => simp [isErrE, hs, he]
      | ok t =>
        cases hr : env.splitDateRange s t (exploreChunk f) false with
        | error e => simp [isErrE, hs, he, hr]
        | ok rs => simp [isErrE, hs, he, hr]
  · intro ranges hranges
    unfold Client.Explore
    simp [hranges]
  · intro herr
    unfold Client.Explore
    cases hsetup : exploreSetup env f with
    | error e => simp
    | ok rs => rw [hsetup] at herr; simp [isErrE] at herr
  · intro hfail ranges hranges
    unfold Client.Explore
    simp [hranges, exploreCollect_nil_of_failed sched hfail]

/-- C9: GetSourceTenants hands the transport exactly one GET to the fixed
path `admin/tenants` under the client's base address, with `start` (resp.
`end`) copied verbatim from the Filter's `TimeStart` (resp. `TimeEnd`)
exactly when non-empty; the call succeeds with the decoded data list exactly
when the transport, the 200 status check, the decode and the close all
succeed (so every such failure is surfaced as a non-nil error with no
list). -/
theorem get_source_tenants_spec {Body : Type} (c : Client) (env : Env Body)
    (f : Filter) :
    (c.GetSourceTenantsT env f).1 =
      [applyAuth c.AuthCfg (tenantsRequest c.Addr f)] ∧
    (tenantsRequest c.Addr f).method = "GET" ∧
    (tenantsRequest c.Addr f).url = c.Addr ++ "/" ++ nativeTenantsAddr ∧
    (tenantsRequest c.Addr f).query.lookup "start" =
      (if f.TimeStart = "" then none else some f.TimeStart) ∧
    (tenantsRequest c.Addr f).query.lookup "end" =
      (if f.TimeEnd = "" then none else some f.TimeEnd) ∧
    (∀ r : List String,
      c.GetSourceTenants env f = .ok r ↔
        ∃ resp, env.send (applyAuth c.AuthCfg (tenantsRequest c.Addr f)) = .ok resp ∧
          resp.statusCode = 200 ∧ env.decodeTenants resp.body = .ok r ∧
          env.closeBody resp.body = .ok ()) := by
  refine ⟨rfl, ?_, ?_, ?_, ?_, ?_⟩
  · rfl
  · rfl
  · by_cases hs : f.TimeStart = "" <;> by_cases he : f.TimeEnd = "" <;>
      simp [tenantsRequest, setParam, hs, he, List.lookup]
  · by_cases hs : f.TimeStart = "" <;> by_cases he : f.TimeEnd = "" <;>
      simp [tenantsRequest, setParam, hs, he, List.lookup]
  · intro r
    unfold Client.GetSourceTenants Client.GetSourceTenantsT Client.doRequestT
    cases hsend : env.send (applyAuth c.AuthCfg (tenantsRequest c.Addr f)) with
    | error e => simp [hsend]
    | ok resp =>
      by_cases hsc : resp.statusCode = 200
      · cases hdec : env.decodeTenants resp.body with
        | error e => simp [hsend, hsc, hdec]
        | ok tenants =>
          cases hclose : env.closeBody resp.body with
          | error e => simp [hsend, hsc, hdec, hclose]
          | ok u => cases u; simp [hsend, hsc, hdec, hclose]
      · cases hread : env.readAll resp.body with
        | error e => simp [hsend, hsc, hread]
        | ok b => simp [hsend, hsc, hread]

/-- Specification-side request executor, following the claim's description of
`do`: authentication headers are attached exactly when a credential
configuration is present, a single send attempt is performed, a transport
failure yields an error wrapping the underlying cause and no response, a
response whose status differs from the expected code yields an error carrying
the observed status code and the body text (`textOf` gives each body's full
text) and no response, and a matching status yields the open response and a
nil error. -/
def doSpec {Body : Type}
    (authCfg : Option (List (String × String) → List (String × String)))
    (send : Request → Except String (HTTPResponse Body)) (textOf : Body → String)
    (req : Request) (expSC : Nat) :
    List Request × Except String (HTTPResponse Body) :=
  let sent :=
    match authCfg with
    | none => req
    | some setHeaders => { req with headers := setHeaders req.headers }
  ([sent],
    match send sent with
    | .error cause => .error ("unexpected error when performing request: " ++ cause)
    | .ok resp =>
      if resp.statusCode = expSC then .ok resp
      else
        .error ("unexpected response code " ++ toString resp.statusCode ++ ": "
          ++ textOf resp.body))

/-- C6: for every request and expected status code, `do` equals the claim's
executor `doSpec` — headers attached exactly when a credential configuration
is present, one send attempt, transport failure wrapped with no response,
status mismatch reported with the observed status and the full body text with
no response, matching status returning the open response with a nil error —
whenever every body is readable (`textOf` giving its text). -/
theorem do_refines_spec {Body : Type} (c : Client) (env : Env Body)
    (req : Request) (expSC : Nat) (textOf : Body → String)
    (hread : ∀ b, env.readAll b = .ok (textOf b)) :
    c.doRequestT env req expSC = doSpec c.AuthCfg env.send textOf req expSC := by
  unfold Client.doRequestT doSpec applyAuth
  cases hcfg : c.AuthCfg with
  | none =>
    cases hsend : env.send req with
    | error e => simp [hsend]
    | ok resp => by_cases hsc : resp.statusCode = expSC <;> simp [hsend, hsc, hread]
  | some setHeaders =>
    cases hsend : env.send { req with headers := setHeaders req.headers } with
    | error e => simp [hsend]
    | ok resp => by_cases hsc : resp.statusCode = expSC <;> simp [hsend, hsc, hread]

/-- C6 witness: the refinement at the sample client and environment, whose
bodies are all readable. -/
theorem do_refines_spec_witness :
    sampleClient.doRequestT sampleEnv { method := "GET", url := "http://src" } 200
      = doSpec sampleClient.AuthCfg sampleEnv.send (fun b => "body" ++ toString b)
        { method := "GET", url := "http://src" } 200 :=
  do_refines_spec sampleClient sampleEnv { method := "GET", url := "http://src" }
    200 (fun b => "body" ++ toString b) (fun _ => rfl)

/-- Sample 500 response handed back for the sample import request. -/
def sampleResp500 : HTTPResponse Nat := { statusCode := 500, body := 2 }

/-- C7: when the destination answers the import POST with response `resp`,
ImportPipe succeeds exactly when the status is 204 and the body close
succeeds; on any other status the returned error's message contains the
response body text; on a 204 the close failure (and nothing else) is
returned as the error. -/
theorem import_pipe_spec {Body : Type} (c : Client) (env : Env Body)
    (dstURL : String) (resp : HTTPResponse Body)
    (hsent : env.send (applyAuth c.AuthCfg { method := "POST", url := dstURL })
      = .ok resp) :
    (isOkE (c.ImportPipe env dstURL) =
      (decide (resp.statusCode = 204) && isOkE (env.closeBody resp.body))) ∧
    (∀ b, resp.statusCode ≠ 204 → env.readAll resp.body = .ok b →
      ∃ pre post, c.ImportPipe env dstURL = .error (pre ++ b ++ post)) ∧
    (∀ e, resp.statusCode = 204 → env.closeBody resp.body = .error e →
      c.ImportPipe env dstURL = .error ("cannot close import response body: " ++ e)) ∧
    (resp.statusCode = 204 → env.closeBody resp.body = .ok () →
      c.ImportPipe env dstURL = .ok ()) := by
  unfold Client.ImportPipe Client.doRequest Client.doRequestT
  refine ⟨?_, ?_, ?_, ?_⟩
  · by_cases hsc : resp.statusCode = 204
    · cases hclose : env.closeBody resp.body with
      | error e => simp [hsent, hsc, hclose, isOkE]
      | ok u => cases u; simp [hsent, hsc, hclose, isOkE]
    · cases hread : env.readAll resp.body with
      | error e => simp [hsent, hsc, hread, isOkE]
      | ok b => simp [hsent, hsc, hread, isOkE]
  · intro b hsc hread
    refine ⟨"import request failed: unexpected response code "
      ++ toString resp.statusCode ++ ": ", "", ?_⟩
    simp [hsent, hsc, hread, String.append_assoc]
    rw [← String.append_assoc]
    have hlit : ("import request failed: " ++ "unexpected response code " : String)
        = "import request failed: unexpected response code " := rfl
    rw [hlit]
  · intro e hsc hclose
    simp [hsent, hsc, hclose]
  · intro hsc hclose
    simp [hsent, hsc, hclose]

/-- Every goroutine whose intrinsic outcome is a success delivers exactly
that outcome in the schedule (no successful delivery is abandoned by a racing
cancellation, no successful goroutine is aborted mid-request). -/
def allDelivered (tasks : List (Except String (List String)))
    (sched : List (Nat × TaskRes)) : Bool :=
  sched.all fun e =>
    match tasks[e.1]? with
    | some (.ok ns) => decide (e.2 = TaskRes.delivered ns)
    | _ => true

/-- Schedule of the sample all-success execution (`sampleEnvOk`): both
sub-range goroutines deliver `["a"]`, in range order. -/
def schedOk : List (Nat × TaskRes) :=
  [(0, .delivered ["a"]), (1, .delivered ["a"])]

/-- Schedule of a sample racy execution under `sampleEnv`: the failing second
goroutine finishes first, which cancels the group context, and the successful
first goroutine's `select` then takes `ctx.Done()`, abandoning its
delivery. -/
def schedBad : List (Nat × TaskRes) :=
  [(1, .failed "series request failed: unexpected response code 500: body2"),
   (0, .abandoned)]

theorem range_filterMap_getElem {α β : Type} (l : List α) (g : α → Option β) :
    (List.range l.length).filterMap (fun i => (l[i]?).bind g) = l.filterMap g := by
  induction l with
  | nil => simp
  | cons a as ih =>
    rw [List.length_cons, List.range_succ_eq_map, List.filterMap_cons,
      List.filterMap_map]
    have htail : ((fun i => (((a :: as)[i]?).bind g)) ∘ Nat.succ)
        = fun i => (as[i]?).bind g := by
      funext i
      simp
    rw [htail, ih]
    cases hga : g a <;> simp [List.filterMap_cons, hga]

theorem filterMap_sublist_map {α β : Type} (l : List α) (f : α → Option β)
    (g : α → β) (h : ∀ a b, f a = some b → b = g a) :
    (l.filterMap f).Sublist (l.map g) := by
  induction l with
  | nil => simp
  | cons a as ih =>
    rw [List.map_cons, List.filterMap_cons]
    cases hfa : f a with
    | none => exact ih.cons _
    | some b => rw [h a b hfa]; exact ih.cons₂ _

theorem deliveredLists_of_allDelivered
    (tasks : List (Except String (List String))) (cc : Bool)
    (sched : List (Nat × TaskRes))
    (hwf : sched.all (wfEntry tasks cc) = true)
    (hdel : allDelivered tasks sched = true) :
    deliveredLists sched
      = (sched.map Prod.fst).filterMap (fun i => (tasks[i]?).bind okValue) := by
  rw [List.filterMap_map]
  unfold deliveredLists
  apply List.filterMap_congr
  intro e he
  have hw := List.all_eq_true.mp hwf e he
  have hd := List.all_eq_true.mp hdel e he
  unfold wfEntry at hw
  unfold allDelivered at hd
  cases h1 : tasks[e.1]? with
  | none => rw [h1] at hw; exact absurd hw (by simp)
  | some t =>
    rw [h1] at hw hd
    cases t with
    | ok ns =>
      have : e.2 = TaskRes.delivered ns := of_decide_eq_true hd
      simp [Function.comp, this, h1, okValue]
    | error m =>
      cases h2 : e.2 with
      | delivered ns => rw [h2] at hw; simp [isErrE] at hw
      | failed m2 => simp [Function.comp, h2, h1, okValue]
      | abandoned => simp [Function.comp, h2, h1, okValue]

/-- C3 (amended): for every Filter whose interval splits into sub-ranges, if
the sub-range goroutines that succeed (status 200 with a decodable body) all
complete their channel delivery — none is abandoned by the group cancellation
a failing sibling triggers — then Explore returns a permutation (multiset
union) of the concatenated metric-name lists of exactly the successful
sub-ranges, together with a nil error. -/
theorem explore_partial_union {Body : Type} (c : Client) (env : Env Body)
    (f : Filter) (tenantID : String) (pc : Bool) (ranges : List (Int × Int))
    (sched : List (Nat × TaskRes))
    (hranges : exploreSetup env f = .ok ranges)
    (hwf : wfSched (c.exploreTasks env f tenantID) pc sched)
    (hdel : allDelivered (c.exploreTasks env f tenantID) sched = true) :
    ∃ names, c.Explore env f tenantID sched = .ok names ∧
      names.Perm ((c.exploreTasks env f tenantID).filterMap okValue).flatten := by
  refine ⟨exploreCollect sched, ?_, ?_⟩
  · unfold Client.Explore
    simp [hranges]
  · rw [exploreCollect_eq_flatten]
    rw [deliveredLists_of_allDelivered (c.exploreTasks env f tenantID) _ sched
      hwf.2 hdel]
    have h2 : ((sched.map Prod.fst).filterMap
          (fun i => ((c.exploreTasks env f tenantID)[i]?).bind okValue)).Perm
        ((List.range (c.exploreTasks env f tenantID).length).filterMap
          (fun i => ((c.exploreTasks env f tenantID)[i]?).bind okValue)) :=
      List.Perm.filterMap _ hwf.1
    rw [range_filterMap_getElem (c.exploreTasks env f tenantID) okValue] at h2
    exact h2.flatten

/-- C3 witness: in the all-success sample execution both sub-ranges deliver,
and Explore's result is a permutation of the union of the successful
sub-ranges' name lists. -/
theorem explore_partial_union_witness :
    wfSched (sampleClient.exploreTasks sampleEnvOk sampleFilter "") false schedOk ∧
    allDelivered (sampleClient.exploreTasks sampleEnvOk sampleFilter "") schedOk
      = true ∧
    ∃ names, sampleClient.Explore sampleEnvOk sampleFilter "" schedOk = .ok names ∧
      names.Perm
        ((sampleClient.exploreTasks sampleEnvOk sampleFilter "").filterMap
          okValue).flatten :=
  ⟨by decide, by decide,
    explore_partial_union sampleClient sampleEnvOk sampleFilter "" false
      [(100, 150), (150, 200)] schedOk (by decide) (by decide) (by decide)⟩

/-- C3, counterexample to the claim as stated: under `sampleEnv` the first
sub-range succeeds (status 200, decodable body `["a"]`) and the second fails
with a 500; in the well-formed schedule `schedBad` the failing goroutine
finishes first, the group context is cancelled, the successful goroutine
abandons its delivery, and Explore returns `[]` with a nil error — not the
union `["a"]` of the successful sub-ranges' names. -/
theorem explore_partial_union_cex :
    wfSched (sampleClient.exploreTasks sampleEnv sampleFilter "") false schedBad ∧
    sampleClient.exploreTasks sampleEnv sampleFilter ""
      = [.ok ["a"],
         .error "series request failed: unexpected response code 500: body2"] ∧
    sampleClient.Explore sampleEnv sampleFilter "" schedBad = .ok [] ∧
    ¬ ([] : List String).Perm
      ((sampleClient.exploreTasks sampleEnv sampleFilter "").filterMap
        okValue).flatten := by
  exact ⟨by decide, by decide, by decide, by decide⟩

/-- C10: every Explore result is a concatenation of whole per-sub-range
response lists: there is a list of (sub-range index, full decoded name list)
pairs with pairwise-distinct indices, each pair a successful sub-range
outcome delivered at most once, whose lists concatenated in delivery order —
each as one contiguous block with its internal order preserved — give the
returned names; no sub-range contributes a strict non-empty prefix. -/
theorem explore_atomic_delivery {Body : Type} (c : Client) (env : Env Body)
    (f : Filter) (tenantID : String) (pc : Bool)
    (sched : List (Nat × TaskRes)) (names : List String)
    (hwf : wfSched (c.exploreTasks env f tenantID) pc sched)
    (hok : c.Explore env f tenantID sched = .ok names) :
    ∃ entries : List (Nat × List String),
      (entries.map Prod.fst).Nodup ∧
      (∀ p ∈ entries,
        (c.exploreTasks env f tenantID)[p.1]? = some (.ok p.2)) ∧
      names = (entries.map Prod.snd).flatten := by
  have hnames : names = exploreCollect sched := by
    unfold Client.Explore at hok
    cases hsetup : exploreSetup env f with
    | error e => rw [hsetup] at hok; cases hok
    | ok rs => rw [hsetup] at hok; cases hok; rfl
  refine ⟨sched.filterMap (fun e =>
    match e.2 with
    | .delivered ns => some (e.1, ns)
    | _ => none), ?_, ?_, ?_⟩
  · have hsub : ((sched.filterMap (fun e =>
        match e.2 with
        | TaskRes.delivered ns => some (e.1, ns)
        | _ => none)).map Prod.fst).Sublist (sched.map Prod.fst) := by
      rw [List.map_filterMap]
      apply filterMap_sublist_map
      intro a b hab
      obtain ⟨i, r⟩ := a
      cases r with
      | delivered ns => simp at hab; simp [hab]
      | failed m => simp at hab
      | abandoned => simp at hab
    have hnodup : (sched.map Prod.fst).Nodup :=
      hwf.1.symm.nodup (List.nodup_range _)
    exact hsub.nodup hnodup
  · intro p hp
    rw [List.mem_filterMap] at hp
    obtain ⟨e, he, hpe⟩ := hp
    have hw := List.all_eq_true.mp hwf.2 e he
    unfold wfEntry at hw
    cases h1 : (c.exploreTasks env f tenantID)[e.1]? with
    | none => rw [h1] at hw; exact absurd hw (by simp)
    | some t =>
      rw [h1] at hw
      cases h2 : e.2 with
      | delivered ns =>
        rw [h2] at hpe hw
        simp at hpe hw
        subst hpe
        simp [h1, hw]
      | failed m => rw [h2] at hpe; simp at hpe
      | abandoned => rw [h2] at hpe; simp at hpe
  · rw [hnames, exploreCollect_eq_flatten]
    congr 1
    rw [List.map_filterMap]
    unfold deliveredLists
    apply List.filterMap_congr
    intro e he
    cases h2 : e.2 <;> simp [h2]

/-- C10 witness: in the all-success sample execution the returned names
`["a", "a"]` decompose as the concatenation of the two delivered whole
per-sub-range lists with distinct indices. -/
theorem explore_atomic_delivery_witness :
    wfSched (sampleClient.exploreTasks sampleEnvOk sampleFilter "") false schedOk ∧
    sampleClient.Explore sampleEnvOk sampleFilter "" schedOk = .ok ["a", "a"] ∧
    ∃ entries : List (Nat × List String),
      (entries.map Prod.fst).Nodup ∧
      (∀ p ∈ entries,
        (sampleClient.exploreTasks sampleEnvOk sampleFilter "")[p.1]?
          = some (.ok p.2)) ∧
      ["a", "a"] = (entries.map Prod.snd).flatten :=
  ⟨by decide, by decide,
    explore_atomic_delivery sampleClient sampleEnvOk sampleFilter "" false schedOk
      ["a", "a"] (by decide) (by decide)⟩

/-- C7 witness: the sample destination answers the import POST with a 500
whose body reads `body2`; the conjuncts are discharged at that response. -/
theorem import_pipe_spec_witness :
    (isOkE (sampleClient.ImportPipe sampleEnv "http://dst") =
      (decide (sampleResp500.statusCode = 204)
        && isOkE (sampleEnv.closeBody sampleResp500.body))) ∧
    (∀ b, sampleResp500.statusCode ≠ 204 →
      sampleEnv.readAll sampleResp500.body = .ok b →
      ∃ pre post,
        sampleClient.ImportPipe sampleEnv "http://dst" = .error (pre ++ b ++ post)) ∧
    (∀ e, sampleResp500.statusCode = 204 →
      sampleEnv.closeBody sampleResp500.body = .error e →
      sampleClient.ImportPipe sampleEnv "http://dst"
        = .error ("cannot close import response body: " ++ e)) ∧
    (sampleResp500.statusCode = 204 →
      sampleEnv.closeBody sampleResp500.body = .ok () →
      sampleClient.ImportPipe sampleEnv "http://dst" = .ok ()) :=
  import_pipe_spec sampleClient sampleEnv "http://dst" sampleResp500 rfl

end Native
